import Mathlib

/-!
Shallow embedding of the alerion server-supervision daemon core
(crates/alerion_core), covering the local database, the state machine,
the installation pipeline, output sanitization, bind-mount recreation,
and the websocket session protocol. Definitions are translated from the
Rust sources; theorems check the natural-language specification's claims
against them.
-/

namespace Alerion

/-- Server UUIDs are opaque identifiers; they are modelled as naturals. -/
abbrev Uuid := Nat

/-! ## servers/server.rs : `State` -/

/-- Embedding of `State` from `servers/server.rs` (the database-visible server state). -/
inductive State where
  | Bare
  | Installing
  | Unhealthy
  | Offline
  | Starting
  | Running
  | Stopping
deriving DecidableEq, Repr

/-- Embedding of `State::from_installation_success` from `servers/server.rs`. -/
def State.from_installation_success (success : Bool) : State :=
  if success then State.Offline else State.Unhealthy

/-- Embedding of `State::is_bare` from `servers/server.rs`. -/
def State.is_bare : State → Bool
  | State.Bare => true
  | _ => false

/-- Modelled from the spec: the transition graph of section 4.H
(`Bare→Installing`, `Installing→Offline`, `Installing→Unhealthy`,
`Offline→Starting`, `Starting→Running`, `Running→Stopping`,
`Stopping→Offline`, `Offline→Unhealthy`, `Unhealthy→Installing`).
This is the comparison target for the claims, not code of the repo. -/
def specStateGraphEdge : State → State → Bool
  | State.Bare, State.Installing => true
  | State.Installing, State.Offline => true
  | State.Installing, State.Unhealthy => true
  | State.Offline, State.Starting => true
  | State.Starting, State.Running => true
  | State.Running, State.Stopping => true
  | State.Stopping, State.Offline => true
  | State.Offline, State.Unhealthy => true
  | State.Unhealthy, State.Installing => true
  | _, _ => false

/-! ## fs/db.rs : the local database

`ServerData` is the per-server persisted record, `Handle` the shared
in-memory handle (an `Arc<RwLock<ServerData>>` plus the sender half of the
single-writer queue), and `Root` the whole database. The writer task
(`Root::io_task`) serializes the whole document to `db.json`; JSON
serialization round-trips, so the file contents are modelled as the
parsed `Model` they decode to. -/

/-- Embedding of `ServerData` from `fs/db.rs`. -/
structure ServerData where
  state : State
deriving DecidableEq, Repr

/-- Embedding of `ServerData::default` from `fs/db.rs` (state `Bare`). -/
def ServerData.default : ServerData := ⟨State.Bare⟩

/-- A message on the single-writer persistence queue: the
`(Uuid, ServerData)` pairs sent over the `mpsc` channel in `fs/db.rs`. -/
structure DbMsg where
  uuid : Uuid
  data : ServerData
deriving DecidableEq, Repr

/-- The in-memory JSON document `Model` from `fs/db.rs`
(`servers: HashMap<Uuid, ServerData>`), as an association list. -/
abbrev Model := List (Uuid × ServerData)

/-- Lookup in the document, i.e. `model.servers.get(&uuid)`. -/
def Model.get (m : Model) (u : Uuid) : Option ServerData :=
  (m.find? (fun p => p.1 = u)).map (fun p => p.2)

/-- Embedding of `model.servers.insert(uuid, new_data)` from `Root::io_task`:
replace the record if the key is present, append it otherwise. -/
def Model.set : Model → Uuid → ServerData → Model
  | [], u, d => [(u, d)]
  | (k, v) :: tl, u, d =>
    if k = u then (k, d) :: tl else (k, v) :: Model.set tl u d

/-- Embedding of `Handle` from `fs/db.rs`: a UUID plus the shared record. -/
structure Handle where
  uuid : Uuid
  data : ServerData
deriving DecidableEq, Repr

/-- Embedding of `Handle::new` from `fs/db.rs`. -/
def Handle.new (uuid : Uuid) (data : ServerData) : Handle := ⟨uuid, data⟩

/-- Embedding of `Handle::get` from `fs/db.rs`: a snapshot of the record. -/
def Handle.get (h : Handle) : ServerData := h.data

/-- Embedding of `Handle::update` from `fs/db.rs`: apply `f` to the record under the
write lock, clone the result, and send `(uuid, copy)` on the writer
queue. Returns the updated handle and the queued message. The function
is infallible: no state is inspected and no error is ever returned. -/
def Handle.update (h : Handle) (f : ServerData → ServerData) : Handle × DbMsg :=
  let cpy := f h.data
  (⟨h.uuid, cpy⟩, ⟨h.uuid, cpy⟩)

/-- Embedding of `Root::io_task` from `fs/db.rs`, run over a finite batch of queued
messages: for each `(uuid, new_data)` dequeued, insert it into the
in-memory model and rewrite the whole file (truncate, seek 0, write,
flush). The first component is the writer's in-memory model, the second
the parsed contents of `db.json` (`none` before any write). -/
def ioTaskRun : Model → Option Model → List DbMsg → Model × Option Model
  | m, file, [] => (m, file)
  | m, _, msg :: rest =>
    let m' := Model.set m msg.uuid msg.data
    ioTaskRun m' (some m') rest

/-- Embedding of `Root` from `fs/db.rs`: the handle map (emitted queue messages are
returned by the operations themselves). -/
structure RootState where
  servers : List (Uuid × Handle)
deriving Repr

/-- Lookup in the handle map. -/
def RootState.lookup (r : RootState) (u : Uuid) : Option Handle :=
  (r.servers.find? (fun p => p.1 = u)).map (fun p => p.2)

/-- Embedding of `Root::server` from `fs/db.rs`: on a vacant entry, build a default
(`Bare`) record, send it on the writer queue, insert a fresh handle and
return it; on an occupied entry, return a clone of the stored handle
(sharing the same record) and send nothing. The third component is the
list of messages sent on the writer queue. -/
def RootState.server (r : RootState) (u : Uuid) : Handle × RootState × List DbMsg :=
  match r.lookup u with
  | some h => (h, r, [])
  | none =>
    let data := ServerData.default
    let h := Handle.new u data
    (h, ⟨(u, h) :: r.servers⟩, [⟨u, data⟩])

/-! ## servers/server.rs : lifecycle operations -/

/-- Embedding of `ServerError` from `servers.rs` (only the variant the embedded
operations produce). -/
inductive ServerError where
  | Conflict
deriving DecidableEq, Repr

/-- Embedding of `Server::install_if_appropriate` from `servers/server.rs`: read the
current state; if it is not `Bare`, fail with `Conflict`; otherwise
spawn the installation task and succeed. Only the guard is modelled;
the spawned task is `engage` below. -/
def installIfAppropriate (current : State) : Except ServerError Unit :=
  if !current.is_bare then Except.error ServerError.Conflict else Except.ok ()

/-! ## docker/install.rs : the installation pipeline -/

/-- An error from the container engine client (opaque). -/
inductive DockerError where
  | engine
deriving DecidableEq, Repr

/-- The `state` field of a container inspection response
(`bollard::models::ContainerState`, only the field the pipeline reads). -/
structure ContainerState where
  exit_code : Option Int
deriving DecidableEq, Repr

/-- A container inspection response (`inspect_existing`), only the field
the pipeline reads. -/
structure InspectResponse where
  state : Option ContainerState
deriving DecidableEq, Repr

/-- Embedding of `resp.state.and_then(|s| s.exit_code)` from the monitoring task in
`docker/install.rs`. -/
def InspectResponse.exitCode (resp : InspectResponse) : Option Int :=
  resp.state.bind (fun s => s.exit_code)

/-- The success determination of the monitoring task spawned by `engage`
in `docker/install.rs` (lines 120-141): `success` starts `true`; when
inspection succeeds and an exit code is present, `success` becomes
`code == 0`; when the exit code is absent or inspection fails, the code
logs "assuming success" and leaves `success` at `true`. -/
def installSuccessOf (r : Except DockerError InspectResponse) : Bool :=
  match r with
  | Except.ok resp =>
    match resp.exitCode with
    | some code => code == 0
    | none => true
  | Except.error _ => true

/-- The body of the panel `POST /install` callback
(`post_installation_status(success, false)` in
`Server::mark_install_status`). -/
structure InstallCallback where
  successful : Bool
  reinstall : Bool
deriving DecidableEq, Repr

/-- Embedding of `Server::mark_install_status` from `servers/server.rs`: persist
`State::from_installation_success(success)` through the database and post
`(success, reinstall = false)` to the panel. Returns the state written
and the callback body posted. -/
def mark_install_status (success : Bool) : State × InstallCallback :=
  (State.from_installation_success success, ⟨success, false⟩)

/-- Embedding of `normalize_script` from `docker/install.rs`: replace every carriage
return with a line feed (`script.replace('\r', "\n")`). -/
def normalize_script (script : List Char) : List Char :=
  script.map (fun c => if c = '\r' then '\n' else c)

/-- The contents `engage` writes to `installer.sh` inside the installer
mount (`installer_script(install_mount.path(), &script_normalized)` in
`docker/install.rs` lines 91-96): exactly the normalized script. -/
def installerFileContents (script : List Char) : List Char :=
  normalize_script script

/-! ## docker/install.rs : installer container resource limits -/

/-- Embedding of `BuildConfig` from `alerion_datamodel/remote/server.rs` (the fields
the installer host config reads; `memory_limit` and `swap` are `isize`,
`io_weight` and `cpu_limit` are `u32`). -/
structure BuildConfig where
  memory_limit : Int
  swap : Int
  io_weight : Nat
  cpu_limit : Nat
  threads : Option String
  disk_space : Nat
  oom_disabled : Bool
deriving DecidableEq, Repr

/-- Two's-complement wrap-around of 64-bit signed arithmetic. -/
def i64wrap (x : Int) : Int := (x + 2 ^ 63) % 2 ^ 64 - 2 ^ 63

/-- Wrap-around of 32-bit unsigned arithmetic. -/
def u32wrap (n : Nat) : Nat := n % 2 ^ 32

/-- A container-engine mount specification (opaque to the resource
limits; carried through unchanged). -/
structure DockerMount where
  target : String
deriving DecidableEq, Repr

/-- The `bollard::models::HostConfig` fields set by
`docker_install_container_config` in `docker/install.rs`. -/
structure HostConfig where
  memory : Option Int
  blkio_weight : Option Nat
  cpuset_cpus : Option String
  memory_swap : Option Int
  memory_swappiness : Option Int
  memory_reservation : Option Int
  cpu_period : Option Int
  cpu_shares : Option Int
  cpu_quota : Option Int
  oom_kill_disable : Option Bool
  mounts : Option (List DockerMount)
  pids_limit : Option Int
deriving DecidableEq, Repr

/-- The `host_config` built by `docker_install_container_config` in
`docker/install.rs` (lines 251-296): `MIB_TO_BYTES = 1000 * 1000`;
`mem_hard_limit = i64::max(0, build.memory_limit) * MIB_TO_BYTES`;
`generous_mem = mem_hard_limit + mem_hard_limit / 5` (truncating `i64`
division); CPU period/shares/quota set only when `build.cpu_limit > 0`
(quota is the `u32` product `build.cpu_limit * 1000` cast to `i64`).
All `i64` arithmetic wraps. -/
def docker_install_host_config (build : BuildConfig) (mounts : List DockerMount) :
    HostConfig :=
  let mem_hard_limit := i64wrap (max 0 build.memory_limit * 1000000)
  let generous_mem := i64wrap (mem_hard_limit + Int.tdiv mem_hard_limit 5)
  let cpuTriple : Option Int × Option Int × Option Int :=
    if build.cpu_limit > 0 then
      (some 100000, some 1024, some (Int.ofNat (u32wrap (build.cpu_limit * 1000))))
    else
      (none, none, none)
  { memory := some mem_hard_limit
    blkio_weight := some build.io_weight
    cpuset_cpus := build.threads
    memory_swap := some (i64wrap (build.swap + build.memory_limit))
    memory_swappiness := some 70
    memory_reservation := some generous_mem
    cpu_period := cpuTriple.1
    cpu_shares := cpuTriple.2.1
    cpu_quota := cpuTriple.2.2
    oom_kill_disable := some build.oom_disabled
    mounts := some mounts
    pids_limit := some 256 }

/-! ## fs.rs : bind-mount directories (`Mounts`)

The mounts root is modelled as an association list from directory name to
directory listing; a name that is absent from the list is a directory
that does not exist on disk. A directory entry is a name plus its kind
(regular file, symlink, unknown, or subdirectory with its own
contents). -/

/-- Embedding of `MountType` from `fs.rs`. -/
inductive MountType where
  | Installer
  | Server
deriving DecidableEq, Repr

/-- The `Display` rendering of `MountType` from `fs.rs`. -/
def MountType.render : MountType → String
  | MountType.Installer => "installer"
  | MountType.Server => "server"

/-- The kind of a directory entry, as classified by
`DirEntry::file_type` in `clear_directory` (`fs.rs`): directories go to
`remove_dir_all`, everything else (file, symlink, unknown) to
`remove_file`. -/
inductive FsEntry where
  | file
  | symlink
  | other
  | dir (children : List (String × FsEntry))

/-- A directory listing: named entries. -/
abbrev DirContents := List (String × FsEntry)

/-- The mounts root: existing directories by name. -/
abbrev MountsRoot := List (String × DirContents)

/-- The directory name `format!("uuid_typ")` built by both `retrive` and
`force_recreate` in `fs.rs`. -/
def mountName (uuid : Uuid) (typ : MountType) : String :=
  toString uuid ++ "_" ++ typ.render

/-- Whether a directory exists under the mounts root. -/
def MountsRoot.lookupDir (r : MountsRoot) (name : String) : Option DirContents :=
  (r.find? (fun p => p.1 = name)).map (fun p => p.2)

/-- Embedding of `fs::create_dir_all(&path)`: create the directory if absent, leave
it (and its contents) untouched if present. -/
def MountsRoot.createDirAll (r : MountsRoot) (name : String) : MountsRoot :=
  match r.lookupDir name with
  | some _ => r
  | none => (name, []) :: r

/-- Removal of one named entry from a listing: `fs::remove_file` for
files, symlinks and unknown entries, `fs::remove_dir_all` for
subdirectories; each deletes the named entry outright. -/
def removeName (d : DirContents) (name : String) : DirContents :=
  d.filter (fun e => e.1 ≠ name)

/-- Embedding of `clear_directory` from `fs.rs` (lines 226-265): read the listing,
then delete every entry found (files concurrently with directories; the
net effect on the listing is deleting each entry that was read). -/
def clear_directory (d : DirContents) : DirContents :=
  (d.map (fun e => e.1)).foldl removeName d

/-- Apply `clear_directory` to the directory `name` under the root. -/
def MountsRoot.clearAt (r : MountsRoot) (name : String) : MountsRoot :=
  r.map (fun p => if p.1 = name then (p.1, clear_directory p.2) else p)

/-- Embedding of `Mounts::force_recreate` from `fs.rs` (lines 215-224):
`create_dir_all` the named directory, then `clear_directory` it.
Returns the updated filesystem (the function's return value is the
path, which is `mountName uuid typ` under the root). -/
def force_recreate (r : MountsRoot) (uuid : Uuid) (typ : MountType) : MountsRoot :=
  ((r.createDirAll (mountName uuid typ)).clearAt (mountName uuid typ))

/-! ## websocket/conn.rs, websocket/auth.rs : session protocol

A JWT string is modelled as the claims it decodes to plus a flag for
whether decoding and signature/issuer validation succeed
(`jsonwebtoken::decode` succeeding). -/

/-- Embedding of `EventType` from `websocket/conn.rs`. -/
inductive EventType where
  | Authentication
  | AuthenticationSuccess
  | Stats
  | Logs
  | ConsoleOutput
  | InstallOutput
  | InstallCompleted
  | Status
  | SendLogs
  | SendStats
  | SendCommand
  | SetState
  | DaemonError
  | JwtError
deriving DecidableEq, Repr

/-- Embedding of `Permissions` from `websocket/auth.rs` (a `u32` bitflags set, one
field per flag). -/
structure Permissions where
  connect : Bool
  start : Bool
  stop : Bool
  restart : Bool
  console : Bool
  backup_read : Bool
  admin_errors : Bool
  admin_install : Bool
  admin_transfer : Bool
deriving DecidableEq, Repr

/-- Embedding of `Permissions::empty()`. -/
def Permissions.empty : Permissions :=
  ⟨false, false, false, false, false, false, false, false, false⟩

/-- One step of the loop in `Permissions::from_strings`
(`websocket/auth.rs` lines 41-88). -/
def Permissions.insertString (p : Permissions) (s : String) : Permissions :=
  match s with
  | "*" =>
    { p with connect := true, start := true, stop := true,
             restart := true, console := true, backup_read := true }
  | "websocket.connect" => { p with connect := true }
  | "control.start" => { p with start := true }
  | "control.stop" => { p with stop := true }
  | "control.restart" => { p with restart := true }
  | "control.console" => { p with console := true }
  | "backup.read" => { p with backup_read := true }
  | "admin.websocket.errors" => { p with admin_errors := true }
  | "admin.websocket.install" => { p with admin_install := true }
  | "admin.websocket.transfer" => { p with admin_transfer := true }
  | _ => p

/-- Embedding of `Permissions::from_strings` from `websocket/auth.rs`. -/
def Permissions.from_strings (strings : List String) : Permissions :=
  strings.foldl Permissions.insertString Permissions.empty

/-- A JWT, modelled as its decoded claims plus a decode/validation
success flag (secret and issuer check). -/
structure AuthToken where
  decode_ok : Bool
  server_uuid : Uuid
  permissions : List String
deriving DecidableEq, Repr

/-- Embedding of `Auth::validate` from `websocket/auth.rs` (lines 116-121): decode
and validate the JWT; keep the result only if the `server_uuid` claim
equals the connection's UUID; on success derive the permission set. -/
def Auth.validate (tok : AuthToken) (server_uuid : Uuid) : Option Permissions :=
  if tok.decode_ok ∧ tok.server_uuid = server_uuid then
    some (Permissions.from_strings tok.permissions)
  else
    none

/-- The `is_valid` check `handle_text` performs on an `auth` frame:
validation succeeded (per `Auth::validate`). -/
def Auth.is_valid (tok : AuthToken) (server_uuid : Uuid) : Bool :=
  (Auth.validate tok server_uuid).isSome

/-- Embedding of `PanelMessage` from `websocket/conn.rs`: messages forwarded to the
server's inbound queue. -/
inductive PanelMessage where
  | Command (cmd : String)
  | ReceiveLogs
  | ReceiveStats
deriving DecidableEq, Repr

/-- A parsed inbound text frame (`RawMessage` from `websocket/conn.rs`);
arguments are only ever read by the `auth` branch, so they are modelled
as the JWTs they carry. -/
structure RawMessage where
  event : EventType
  args : Option (List AuthToken)
deriving DecidableEq, Repr

/-- Embedding of `RawMessage::into_first_arg`. -/
def RawMessage.into_first_arg (m : RawMessage) : Option AuthToken :=
  match m.args with
  | some (a :: _) => some a
  | _ => none

/-- The per-session authentication state (`AuthTracker` from
`websocket/relay.rs`: a single shared boolean; the session stores no
permission bits). -/
structure SessionState where
  authenticated : Bool
deriving DecidableEq, Repr

/-- Embedding of `WebsocketConnectionImpl::handle_text` from `websocket/conn.rs`
(lines 267-310). Result: `none` models the `todo!()` panic on an
unhandled authenticated event; `some (st, frames, sent)` gives the new
session state, the text frames written to the client (by event type),
and the `PanelMessage`s forwarded to the server's inbound queue
(`send_if_authenticated` re-reads the same authentication flag). -/
def handle_text (serverUuid : Uuid) (st : SessionState) (msg : RawMessage) :
    Option (SessionState × List EventType × List PanelMessage) :=
  match msg.event with
  | EventType.Authentication =>
    match msg.into_first_arg with
    | none => some (st, [], [])
    | some tok =>
      if Auth.is_valid tok serverUuid then
        some (⟨true⟩, [EventType.AuthenticationSuccess], [])
      else
        some (st, [], [])
  | ty =>
    if st.authenticated then
      match ty with
      | EventType.SendCommand => some (st, [], [PanelMessage.Command "silly"])
      | EventType.SendStats => some (st, [], [PanelMessage.ReceiveStats])
      | EventType.SendLogs => some (st, [], [PanelMessage.ReceiveLogs])
      | _ => none
    else
      some (st, [], [])

/-! ## docker/install.rs : output sanitization

`sanitize_output` runs `String::from_utf8_lossy` and then filters out
characters that are control characters but not whitespace. The lossy
UTF-8 decoder below follows Rust's: maximal valid sequences decode to
their scalar value; each maximal invalid subpart is replaced by one
U+FFFD. Rust's `char::is_control` is Unicode category Cc
(U+0000-U+001F and U+007F-U+009F); `char::is_whitespace` is the Unicode
White_Space property. -/

/-- U+FFFD REPLACEMENT CHARACTER. -/
def replacementChar : Char := Char.ofNat 0xFFFD

/-- A UTF-8 continuation byte (0x80-0xBF). -/
def isCont (b : Nat) : Bool := 0x80 ≤ b ∧ b ≤ 0xBF

/-- Valid first continuation byte after a three-byte lead `b`
(0xE0 requires 0xA0-0xBF, 0xED requires 0x80-0x9F, excluding overlong
encodings and surrogates). -/
def cont1ok3 (b c : Nat) : Bool :=
  if b = 0xE0 then 0xA0 ≤ c ∧ c ≤ 0xBF
  else if b = 0xED then 0x80 ≤ c ∧ c ≤ 0x9F
  else isCont c

/-- Valid first continuation byte after a four-byte lead `b`
(0xF0 requires 0x90-0xBF, 0xF4 requires 0x80-0x8F). -/
def cont1ok4 (b c : Nat) : Bool :=
  if b = 0xF0 then 0x90 ≤ c ∧ c ≤ 0xBF
  else if b = 0xF4 then 0x80 ≤ c ∧ c ≤ 0x8F
  else isCont c

/-- Embedding of `String::from_utf8_lossy` over a byte list. -/
def utf8LossyDecode : List Nat → List Char
  | [] => []
  | b :: rest =>
    if b < 0x80 then Char.ofNat b :: utf8LossyDecode rest
    else if b < 0xC2 then replacementChar :: utf8LossyDecode rest
    else if b ≤ 0xDF then
      match rest with
      | [] => [replacementChar]
      | c1 :: r1 =>
        if isCont c1 then
          Char.ofNat ((b - 0xC0) * 0x40 + (c1 - 0x80)) :: utf8LossyDecode r1
        else replacementChar :: utf8LossyDecode (c1 :: r1)
    else if b ≤ 0xEF then
      match rest with
      | [] => [replacementChar]
      | c1 :: r1 =>
        if cont1ok3 b c1 then
          match r1 with
          | [] => [replacementChar]
          | c2 :: r2 =>
            if isCont c2 then
              Char.ofNat ((b - 0xE0) * 0x1000 + (c1 - 0x80) * 0x40 + (c2 - 0x80)) ::
                utf8LossyDecode r2
            else replacementChar :: utf8LossyDecode (c2 :: r2)
        else replacementChar :: utf8LossyDecode (c1 :: r1)
    else if b ≤ 0xF4 then
      match rest with
      | [] => [replacementChar]
      | c1 :: r1 =>
        if cont1ok4 b c1 then
          match r1 with
          | [] => [replacementChar]
          | c2 :: r2 =>
            if isCont c2 then
              match r2 with
              | [] => [replacementChar]
              | c3 :: r3 =>
                if isCont c3 then
                  Char.ofNat ((b - 0xF0) * 0x40000 + (c1 - 0x80) * 0x1000 +
                      (c2 - 0x80) * 0x40 + (c3 - 0x80)) ::
                    utf8LossyDecode r3
                else replacementChar :: utf8LossyDecode (c3 :: r3)
            else replacementChar :: utf8LossyDecode (c2 :: r2)
        else replacementChar :: utf8LossyDecode (c1 :: r1)
    else replacementChar :: utf8LossyDecode rest

/-- Rust `char::is_control`: Unicode category Cc. -/
def rustIsControl (c : Char) : Bool :=
  c.toNat ≤ 0x1F ∨ (0x7F ≤ c.toNat ∧ c.toNat ≤ 0x9F)

/-- Rust `char::is_whitespace`: the Unicode White_Space property. -/
def rustIsWhitespace (c : Char) : Bool :=
  let n := c.toNat
  (0x09 ≤ n ∧ n ≤ 0x0D) ∨ n = 0x20 ∨ n = 0x85 ∨ n = 0xA0 ∨ n = 0x1680 ∨
    (0x2000 ≤ n ∧ n ≤ 0x200A) ∨ n = 0x2028 ∨ n = 0x2029 ∨ n = 0x202F ∨
    n = 0x205F ∨ n = 0x3000

/-- Embedding of `sanitize_output` from `docker/install.rs` (lines 186-196):
`from_utf8_lossy`, then keep a character iff it is not a control
character or is whitespace. -/
def sanitize_output (bytes : List Nat) : List Char :=
  (utf8LossyDecode bytes).filter (fun c => !rustIsControl c || rustIsWhitespace c)

/-! ## Helper lemmas -/

theorem i64wrap_eq_self (x : Int) (h1 : -(2 ^ 63) ≤ x) (h2 : x < 2 ^ 63) :
    i64wrap x = x := by
  unfold i64wrap
  omega

/-! ## Claim C1 -/

/-- C1, counterexample: with the record in state `Running`, an update
writing state `Installing` — not an edge of the section 4.H graph —
succeeds unconditionally: `Handle::update` has no failure mode, performs
no current-state check, changes the record and queues the write; no
`Conflict` is produced. -/
theorem c1_counterexample :
    (Handle.update ⟨0, ⟨State.Running⟩⟩ (fun _ => ⟨State.Installing⟩)).1.data.state
      = State.Installing ∧
    (Handle.update ⟨0, ⟨State.Running⟩⟩ (fun _ => ⟨State.Installing⟩)).2
      = ⟨0, ⟨State.Installing⟩⟩ ∧
    specStateGraphEdge State.Running State.Installing = false := by
  exact ⟨rfl, rfl, rfl⟩

/-- C1, amended: `Handle::update` applies any mutation unconditionally —
it validates nothing against the section 4.H graph and cannot fail with
`Conflict` — and the only state-machine guard is
`Server::install_if_appropriate`, which fails with `Conflict` exactly
when the current state is not `Bare` (a read performed before spawning
the installation, not a check-and-set spanning the later write). -/
theorem c1_amended :
    (∀ (h : Handle) (f : ServerData → ServerData),
      Handle.update h f = (⟨h.uuid, f h.data⟩, ⟨h.uuid, f h.data⟩)) ∧
    (∀ s : State, installIfAppropriate s =
      if s.is_bare then Except.ok () else Except.error ServerError.Conflict) := by
  refine ⟨fun h f => rfl, fun s => ?_⟩
  unfold installIfAppropriate
  cases s.is_bare <;> simp

/-! ## Claim C3 -/

/-- C3, counterexample: when the container inspection succeeds but the
exit code is unavailable (`state.exit_code = None`), the pipeline keeps
`success = true` ("assuming success"): the installation is treated as a
success, the persisted state becomes `Offline`, and the panel callback
is posted with `successful = true` — not as a failure. -/
theorem c3_counterexample :
    installSuccessOf (Except.ok ⟨some ⟨none⟩⟩) = true ∧
    mark_install_status (installSuccessOf (Except.ok ⟨some ⟨none⟩⟩)) =
      (State.Offline, ⟨true, false⟩) ∧
    installSuccessOf (Except.error DockerError.engine) = true := by
  exact ⟨rfl, rfl, rfl⟩

/-- C3, amended: when inspection succeeds and an exit code is present,
the installation is successful iff the exit code is 0; if the exit code
is unavailable or inspection fails, the installation is treated as a
success; the persisted state becomes `Offline` on success and
`Unhealthy` on failure, and the panel callback is posted with
`successful` equal to the computed success and `reinstall = false`. -/
theorem c3_amended (resp : InspectResponse) (code : Int) (e : DockerError) (b : Bool) :
    (resp.exitCode = some code → installSuccessOf (Except.ok resp) = (code == 0)) ∧
    (resp.exitCode = none → installSuccessOf (Except.ok resp) = true) ∧
    installSuccessOf (Except.error e) = true ∧
    mark_install_status b = (State.from_installation_success b, ⟨b, false⟩) ∧
    State.from_installation_success true = State.Offline ∧
    State.from_installation_success false = State.Unhealthy := by
  refine ⟨?_, ?_, rfl, rfl, rfl, rfl⟩
  · intro h
    simp [installSuccessOf, h]
  · intro h
    simp [installSuccessOf, h]

/-- C3, witness for the amended theorem at a concrete inspection result
(exit code 2: failure). -/
theorem c3_amended_witness :
    installSuccessOf (Except.ok ⟨some ⟨some 2⟩⟩) = ((2 : Int) == 0) :=
  (c3_amended ⟨some ⟨some 2⟩⟩ 2 DockerError.engine true).1 rfl

/-! ## Claim C8 -/

/-- C8: the contents written to `installer.sh` are exactly the panel's
script with every carriage return replaced by a line feed, and contain
no carriage return. -/
theorem c8_normalize (script : List Char) :
    installerFileContents script =
      script.map (fun c => if c = '\r' then '\n' else c) ∧
    '\r' ∉ installerFileContents script := by
  refine ⟨rfl, ?_⟩
  intro hmem
  obtain ⟨a, _, hfa⟩ := List.mem_map.mp hmem
  by_cases h : a = '\r'
  · rw [if_pos h] at hfa
    exact absurd hfa (by decide)
  · rw [if_neg h] at hfa
    exact h hfa

/-- C8, witness at a concrete script containing a carriage return. -/
theorem c8_normalize_witness :
    installerFileContents ['o', 'k', '\r'] = ['o', 'k', '\n'] ∧
    '\r' ∉ installerFileContents ['o', 'k', '\r'] :=
  ⟨(c8_normalize ['o', 'k', '\r']).1.trans (by decide),
   (c8_normalize ['o', 'k', '\r']).2⟩

/-! ## Claim C9 -/

/-- C9: in the installer host config, the memory hard limit is
`max(0, memory_limit) * 10^6` bytes, the memory reservation is exactly
1.2 times the hard limit, and CPU period 100000 / shares 1024 / quota
`cpu_limit * 1000` are set exactly when `cpu_limit > 0` and all unset
when `cpu_limit = 0` (stated under no-overflow bounds on the 64-bit and
32-bit machine arithmetic). -/
theorem c9_install_limits (build : BuildConfig) (mounts : List DockerMount)
    (hmem : max 0 build.memory_limit ≤ 7 * 10 ^ 12)
    (hcpu : build.cpu_limit * 1000 < 2 ^ 32) :
    (docker_install_host_config build mounts).memory =
      some (max 0 build.memory_limit * 1000000) ∧
    (docker_install_host_config build mounts).memory_reservation =
      some (max 0 build.memory_limit * 1200000) ∧
    5 * (max 0 build.memory_limit * 1200000) =
      6 * (max 0 build.memory_limit * 1000000) ∧
    (0 < build.cpu_limit →
      (docker_install_host_config build mounts).cpu_period = some 100000 ∧
      (docker_install_host_config build mounts).cpu_shares = some 1024 ∧
      (docker_install_host_config build mounts).cpu_quota =
        some ((build.cpu_limit : Int) * 1000)) ∧
    (build.cpu_limit = 0 →
      (docker_install_host_config build mounts).cpu_period = none ∧
      (docker_install_host_config build mounts).cpu_shares = none ∧
      (docker_install_host_config build mounts).cpu_quota = none) := by
  have hm0 : (0 : Int) ≤ max 0 build.memory_limit := le_max_left 0 _
  have hub : max 0 build.memory_limit * 1000000 ≤ 7 * 10 ^ 12 * 1000000 :=
    mul_le_mul_of_nonneg_right hmem (by norm_num)
  have hwrap1 : i64wrap (max 0 build.memory_limit * 1000000) =
      max 0 build.memory_limit * 1000000 := by
    apply i64wrap_eq_self
    · have : (0 : Int) ≤ max 0 build.memory_limit * 1000000 :=
        mul_nonneg hm0 (by norm_num)
      omega
    · omega
  have htd : Int.tdiv (max 0 build.memory_limit * 1000000) 5 =
      max 0 build.memory_limit * 200000 := by
    rw [show max 0 build.memory_limit * 1000000 =
      max 0 build.memory_limit * 200000 * 5 by ring]
    exact Int.mul_tdiv_cancel _ (by norm_num)
  have hsum : max 0 build.memory_limit * 1000000 +
      max 0 build.memory_limit * 200000 = max 0 build.memory_limit * 1200000 := by
    ring
  have hub2 : max 0 build.memory_limit * 1200000 ≤ 7 * 10 ^ 12 * 1200000 :=
    mul_le_mul_of_nonneg_right hmem (by norm_num)
  have hwrap2 : i64wrap (max 0 build.memory_limit * 1200000) =
      max 0 build.memory_limit * 1200000 := by
    apply i64wrap_eq_self
    · have : (0 : Int) ≤ max 0 build.memory_limit * 1200000 :=
        mul_nonneg hm0 (by norm_num)
      omega
    · omega
  have hu32 : u32wrap (build.cpu_limit * 1000) = build.cpu_limit * 1000 :=
    Nat.mod_eq_of_lt hcpu
  simp only [docker_install_host_config]
  rw [hwrap1, htd, hsum, hwrap2]
  refine ⟨rfl, rfl, by ring, ?_, ?_⟩
  · intro hpos
    rw [if_pos hpos]
    refine ⟨rfl, rfl, ?_⟩
    rw [hu32]
    norm_cast
  · intro hzero
    rw [if_neg (by omega)]
    exact ⟨rfl, rfl, rfl⟩

/-- C9, witness at a concrete build config (1024 MiB, 200 % CPU). -/
theorem c9_install_limits_witness :
    (docker_install_host_config ⟨1024, 0, 500, 200, none, 0, false⟩ []).memory =
      some 1024000000 ∧
    (docker_install_host_config ⟨1024, 0, 500, 200, none, 0, false⟩ []).memory_reservation =
      some 1228800000 := by
  have h := c9_install_limits ⟨1024, 0, 500, 200, none, 0, false⟩ []
    (by norm_num) (by norm_num)
  exact ⟨h.1.trans (by norm_num), h.2.1.trans (by norm_num)⟩

/-! ## Claim C5 -/

/-- C5, counterexample: a session authenticated with a JWT whose
permission list is empty — so its derived permission set does not
contain `CONSOLE` — still has its `send logs` frame forwarded to the
server's inbound queue as `ReceiveLogs`: `handle_text` gates `send logs`
on authentication only and never consults the permission set. -/
theorem c5_counterexample :
    Auth.validate ⟨true, 0, []⟩ 0 = some Permissions.empty ∧
    Permissions.empty.console = false ∧
    handle_text 0 ⟨false⟩ ⟨EventType.Authentication, some [⟨true, 0, []⟩]⟩ =
      some (⟨true⟩, [EventType.AuthenticationSuccess], []) ∧
    handle_text 0 ⟨true⟩ ⟨EventType.SendLogs, none⟩ =
      some (⟨true⟩, [], [PanelMessage.ReceiveLogs]) := by
  refine ⟨by decide, rfl, by decide, by decide⟩

/-- C5, amended: a `send logs` frame is gated on authentication only.
For an unauthenticated session it produces no side effect at all (no
reply frame, no forwarded message, no state change); for an
authenticated session it forwards `ReceiveLogs` to the server's inbound
queue regardless of the permission set (the session tracks no
`wants_logs` flag and no permission bits). -/
theorem c5_amended (u : Uuid) (st : SessionState) (args : Option (List AuthToken)) :
    (st.authenticated = false →
      handle_text u st ⟨EventType.SendLogs, args⟩ = some (st, [], [])) ∧
    (st.authenticated = true →
      handle_text u st ⟨EventType.SendLogs, args⟩ =
        some (st, [], [PanelMessage.ReceiveLogs])) := by
  constructor <;> intro h <;> simp [handle_text, h]

/-- C5, witness for the amended theorem: an unauthenticated session's
`send logs` frame has no effect. -/
theorem c5_amended_witness :
    handle_text 0 ⟨false⟩ ⟨EventType.SendLogs, none⟩ = some (⟨false⟩, [], []) :=
  (c5_amended 0 ⟨false⟩ none).1 rfl

/-! ## Claim C6 -/

/-- C6, counterexample: an `auth` frame carrying a JWT whose
`server_uuid` claim (1) differs from the connection URL's UUID (0) is
silently ignored: validation returns nothing and `handle_text` replies
with no frame at all — in particular no `jwt error` frame — leaving the
session unauthenticated. -/
theorem c6_counterexample :
    Auth.validate ⟨true, 1, ["*"]⟩ 0 = none ∧
    handle_text 0 ⟨false⟩ ⟨EventType.Authentication, some [⟨true, 1, ["*"]⟩]⟩ =
      some (⟨false⟩, [], []) := by
  refine ⟨by decide, by decide⟩

/-- C6, amended: for every `auth` frame whose JWT fails validation
against the configured secret and issuer, or whose `server_uuid` claim
differs from the UUID in the connection URL, the session sends no reply
(it silently ignores the frame, with no `jwt error`), grants no
permissions and remains in its previous authentication state; an
unauthenticated session's subsequent `send logs` frames have no
effect. -/
theorem c6_amended (u : Uuid) (st : SessionState) (tok : AuthToken)
    (rest : List AuthToken) (hval : Auth.validate tok u = none) :
    handle_text u st ⟨EventType.Authentication, some (tok :: rest)⟩ =
      some (st, [], []) ∧
    (st.authenticated = false →
      handle_text u st ⟨EventType.SendLogs, none⟩ = some (st, [], [])) := by
  constructor
  · simp [handle_text, RawMessage.into_first_arg, Auth.is_valid, hval]
  · intro h
    simp [handle_text, h]

/-- C6, witness for the amended theorem at a concrete mismatched
token. -/
theorem c6_amended_witness :
    handle_text 0 ⟨false⟩ ⟨EventType.Authentication, some [⟨true, 1, ["*"]⟩]⟩ =
      some (⟨false⟩, [], []) ∧
    handle_text 0 ⟨false⟩ ⟨EventType.SendLogs, none⟩ = some (⟨false⟩, [], []) :=
  ⟨(c6_amended 0 ⟨false⟩ ⟨true, 1, ["*"]⟩ [] (by decide)).1,
   (c6_amended 0 ⟨false⟩ ⟨true, 1, ["*"]⟩ [] (by decide)).2 rfl⟩

/-! ## Claim C4 -/

/-- C4, counterexample: the chunk `[0x0B, 0xFF]` sanitizes to
`[U+000B, U+FFFD]`: the vertical tab — an ASCII control character that
is none of tab, line feed, carriage return — is kept (it is Unicode
whitespace), and the invalid byte 0xFF decodes to a U+FFFD replacement
character that the filter also keeps (U+FFFD is not a control
character). -/
theorem c4_counterexample :
    sanitize_output [0x0B, 0xFF] = [Char.ofNat 0x0B, replacementChar] ∧
    (Char.ofNat 0x0B).toNat = 0x0B ∧
    rustIsControl (Char.ofNat 0x0B) = true ∧
    ((0x0B : Nat) ≠ 0x09 ∧ (0x0B : Nat) ≠ 0x0A ∧ (0x0B : Nat) ≠ 0x0D) ∧
    replacementChar.toNat = 0xFFFD := by
  refine ⟨by decide, rfl, by decide, by decide, rfl⟩

/-- C4, amended: the sanitized string contains no ASCII control
characters other than tab, line feed, vertical tab, form feed and
carriage return (equivalently: every surviving control character is
Unicode whitespace), and U+FFFD replacement characters are not filtered
(invalid bytes surface as U+FFFD in the broadcast string). -/
theorem c4_amended :
    (∀ (bytes : List Nat) (c : Char), c ∈ sanitize_output bytes →
      c.toNat < 0x80 →
      c.toNat = 0x09 ∨ c.toNat = 0x0A ∨ c.toNat = 0x0B ∨ c.toNat = 0x0C ∨
        c.toNat = 0x0D ∨ (0x20 ≤ c.toNat ∧ c.toNat ≠ 0x7F)) ∧
    sanitize_output [0xFF] = [replacementChar] := by
  constructor
  · intro bytes c hmem hascii
    unfold sanitize_output at hmem
    have hp := (List.mem_filter.mp hmem).2
    cases hctl : rustIsControl c with
    | false =>
      simp only [rustIsControl, decide_eq_false_iff_not] at hctl
      push_neg at hctl
      omega
    | true =>
      rw [hctl] at hp
      simp only [Bool.not_true, Bool.false_or] at hp
      simp only [rustIsWhitespace, decide_eq_true_eq] at hp
      omega
  · decide

/-- C4, witness for the amended theorem: the letter `A` survives
sanitization and is no forbidden control character. -/
theorem c4_amended_witness :
    ('A'.toNat = 0x09 ∨ 'A'.toNat = 0x0A ∨ 'A'.toNat = 0x0B ∨ 'A'.toNat = 0x0C ∨
      'A'.toNat = 0x0D ∨ (0x20 ≤ 'A'.toNat ∧ 'A'.toNat ≠ 0x7F)) :=
  c4_amended.1 [0x41] 'A' (by decide) (by decide)

/-! ## Claim C7 -/

theorem foldl_removeName_eq_nil (names : List String) (acc : DirContents)
    (h : ∀ e ∈ acc, e.1 ∈ names) : names.foldl removeName acc = [] := by
  induction names generalizing acc with
  | nil =>
    cases acc with
    | nil => rfl
    | cons e tl => exact absurd (h e (List.mem_cons_self e tl)) (List.not_mem_nil _)
  | cons n ns ih =>
    apply ih
    intro e he
    have hmem := List.mem_filter.mp he
    have hne : e.1 ≠ n := by simpa using hmem.2
    rcases List.mem_cons.mp (h e hmem.1) with h1 | h2
    · exact absurd h1 hne
    · exact h2

theorem clear_directory_eq_nil (d : DirContents) : clear_directory d = [] := by
  apply foldl_removeName_eq_nil
  intro e he
  exact List.mem_map_of_mem _ he

theorem lookupDir_createDirAll (r : MountsRoot) (n : String) :
    (r.createDirAll n).lookupDir n = some ((r.lookupDir n).getD []) := by
  unfold MountsRoot.createDirAll
  cases h : r.lookupDir n with
  | some d => simp [h]
  | none => simp [MountsRoot.lookupDir, List.find?]

theorem lookupDir_clearAt (r : MountsRoot) (n : String) (d : DirContents)
    (h : r.lookupDir n = some d) :
    (r.clearAt n).lookupDir n = some (clear_directory d) := by
  induction r with
  | nil => simp [MountsRoot.lookupDir] at h
  | cons p tl ih =>
    by_cases hp : p.1 = n
    · have hd : p.2 = d := by
        simp [MountsRoot.lookupDir, List.find?, hp] at h
        exact h
      simp [MountsRoot.clearAt, MountsRoot.lookupDir, List.find?, hp, hd]
    · have h' : MountsRoot.lookupDir tl n = some d := by
        simpa [MountsRoot.lookupDir, List.find?, hp] using h
      have := ih h'
      simpa [MountsRoot.clearAt, MountsRoot.lookupDir, List.find?, hp] using this

/-- C7: for every prior state of the mounts root — the named directory
absent, present and empty, present with any entries (regular files,
symlinks, subdirectories, unknown kinds), or present with foreign
contents — `Mounts::force_recreate` leaves the backing host directory
for the given uuid and purpose existing and empty. -/
theorem c7_force_recreate (r : MountsRoot) (uuid : Uuid) (typ : MountType) :
    (force_recreate r uuid typ).lookupDir (mountName uuid typ) = some [] := by
  unfold force_recreate
  rw [lookupDir_clearAt _ _ _ (lookupDir_createDirAll r (mountName uuid typ)),
    clear_directory_eq_nil]

/-! ## Claim C2 -/

theorem model_get_set_self (m : Model) (u : Uuid) (d : ServerData) :
    Model.get (Model.set m u d) u = some d := by
  induction m with
  | nil => simp [Model.set, Model.get, List.find?]
  | cons p tl ih =>
    by_cases h : p.1 = u
    · simp [Model.set, Model.get, List.find?, h]
    · simpa [Model.set, Model.get, List.find?, h] using ih

theorem model_get_set_ne (m : Model) (u v : Uuid) (d : ServerData) (h : v ≠ u) :
    Model.get (Model.set m u d) v = Model.get m v := by
  have huv : ¬u = v := fun hh => h hh.symm
  induction m with
  | nil => simp [Model.set, Model.get, List.find?, huv]
  | cons p tl ih =>
    by_cases hp : p.1 = u
    · have hpv : ¬p.1 = v := by rw [hp]; exact huv
      simp [Model.set, Model.get, List.find?, hp, hpv, huv]
    · by_cases hv : p.1 = v
      · simp [Model.set, Model.get, List.find?, hp, hv, h]
      · simpa [Model.set, Model.get, List.find?, hp, hv] using ih

theorem get_foldl_dbStep (msgs : List DbMsg) (m : Model) (u : Uuid) :
    Model.get (msgs.foldl (fun acc msg => Model.set acc msg.uuid msg.data) m) u =
      match msgs.reverse.find? (fun msg => msg.uuid = u) with
      | some msg => some msg.data
      | none => Model.get m u := by
  induction msgs generalizing m with
  | nil => simp
  | cons msg rest ih =>
    simp only [List.foldl_cons, List.reverse_cons]
    rw [ih, List.find?_append]
    cases hfind : rest.reverse.find? (fun w => decide (w.uuid = u)) with
    | some w => simp [hfind]
    | none =>
      by_cases hu : msg.uuid = u
      · simp [hfind, List.find?, hu, model_get_set_self]
      · simp [hfind, List.find?, hu, model_get_set_ne m msg.uuid u msg.data
          (fun hh => hu hh.symm)]

theorem ioTaskRun_fst (msgs : List DbMsg) (m : Model) (file : Option Model) :
    (ioTaskRun m file msgs).1 =
      msgs.foldl (fun acc msg => Model.set acc msg.uuid msg.data) m := by
  induction msgs generalizing m file with
  | nil => rfl
  | cons msg rest ih => simpa [ioTaskRun] using ih _ _

theorem ioTaskRun_snd (msgs : List DbMsg) (m : Model) (file : Option Model)
    (hne : msgs ≠ []) :
    (ioTaskRun m file msgs).2 = some ((ioTaskRun m file msgs).1) := by
  induction msgs generalizing m file with
  | nil => exact absurd rfl hne
  | cons msg rest ih =>
    cases rest with
    | nil => rfl
    | cons b bs =>
      simpa [ioTaskRun] using ih (Model.set m msg.uuid msg.data)
        (some (Model.set m msg.uuid msg.data)) (by simp)

/-- C2: once the writer task has dequeued the message emitted by
`update(uuid, f)` (interleaved arbitrarily with other writers' messages,
none of which targets this uuid afterwards), the on-disk document parses
to the writer's model, the record of the uuid in it is `f` applied to
the record snapshot the update mutated, and the record of every uuid no
dequeued message targets is untouched — concurrent updates to distinct
uuids never corrupt or lose each other's record. -/
theorem c2_durability (m0 : Model) (file0 : Option Model) (h : Handle)
    (f : ServerData → ServerData) (pre post : List DbMsg)
    (hpost : ∀ msg ∈ post, msg.uuid ≠ h.uuid) :
    Model.get (ioTaskRun m0 file0 (pre ++ (Handle.update h f).2 :: post)).1 h.uuid
      = some (f h.data) ∧
    (ioTaskRun m0 file0 (pre ++ (Handle.update h f).2 :: post)).2
      = some ((ioTaskRun m0 file0 (pre ++ (Handle.update h f).2 :: post)).1) ∧
    (∀ v : Uuid, (∀ msg ∈ pre ++ (Handle.update h f).2 :: post, msg.uuid ≠ v) →
      Model.get (ioTaskRun m0 file0 (pre ++ (Handle.update h f).2 :: post)).1 v
        = Model.get m0 v) := by
  refine ⟨?_, ioTaskRun_snd _ _ _ (by simp), ?_⟩
  · rw [ioTaskRun_fst, get_foldl_dbStep]
    have hnone : (post.reverse).find? (fun w => decide (w.uuid = h.uuid)) = none := by
      rw [List.find?_eq_none]
      intro w hw
      simpa using hpost w (List.mem_reverse.mp hw)
    rw [List.reverse_append, List.reverse_cons, List.append_assoc,
      List.find?_append, List.find?_append, hnone]
    simp [List.find?, Handle.update]
  · intro v hv
    rw [ioTaskRun_fst, get_foldl_dbStep]
    have hnone : ((pre ++ (Handle.update h f).2 :: post).reverse).find?
        (fun w => decide (w.uuid = v)) = none := by
      rw [List.find?_eq_none]
      intro w hw
      simpa using hv w (List.mem_reverse.mp hw)
    rw [hnone]

/-- C2, witness: a single update to a fresh record, no interleaving. -/
theorem c2_durability_witness :
    Model.get (ioTaskRun [] none
      ([] ++ (Handle.update ⟨1, ⟨State.Bare⟩⟩ (fun _ => ⟨State.Installing⟩)).2
        :: [])).1 1 = some ⟨State.Installing⟩ :=
  (c2_durability [] none ⟨1, ⟨State.Bare⟩⟩ (fun _ => ⟨State.Installing⟩) [] []
    (by simp)).1

/-! ## Claim C10 -/

/-- C10: `Root::server(uuid)` on a uuid with no existing record is not
read-only: it returns a handle whose snapshot state is `Bare`
(`ServerData::default`), sends that fresh `Bare` record on the
single-writer persistence queue — so the writer task persists a `Bare`
record for the server on first lookup — and stores the handle, so every
later call with the same uuid returns that same handle (sharing the same
in-memory record) and sends nothing. On a uuid with an existing handle
it returns that handle unchanged with no queue traffic. -/
theorem c10_root_server (r : RootState) (u : Uuid) :
    (r.lookup u = none →
      (r.server u).1 = Handle.new u ServerData.default ∧
      (r.server u).1.data.state = State.Bare ∧
      (r.server u).2.2 = [⟨u, ServerData.default⟩] ∧
      (∀ (m0 : Model) (file0 : Option Model),
        Model.get (ioTaskRun m0 file0 (r.server u).2.2).1 u =
          some ServerData.default) ∧
      (r.server u).2.1.lookup u = some (r.server u).1 ∧
      ((r.server u).2.1.server u).1 = (r.server u).1 ∧
      ((r.server u).2.1.server u).2.2 = []) ∧
    (∀ h0, r.lookup u = some h0 → r.server u = (h0, r, [])) := by
  constructor
  · intro hnone
    have hsrv : r.server u =
        (Handle.new u ServerData.default,
          ⟨(u, Handle.new u ServerData.default) :: r.servers⟩,
          [⟨u, ServerData.default⟩]) := by
      simp [RootState.server, hnone]
    have hlook : (RootState.mk ((u, Handle.new u ServerData.default) :: r.servers)).lookup u
        = some (Handle.new u ServerData.default) := by
      simp [RootState.lookup, List.find?]
    refine ⟨by rw [hsrv], by rw [hsrv]; rfl, by rw [hsrv], ?_, ?_, ?_, ?_⟩
    · intro m0 file0
      rw [hsrv, ioTaskRun_fst]
      simpa using model_get_set_self m0 u ServerData.default
    · rw [hsrv]
      simpa using hlook
    · rw [hsrv]
      simp [RootState.server, hlook]
    · rw [hsrv]
      simp [RootState.server, hlook]
  · intro h0 hsome
    simp [RootState.server, hsome]

/-- C10, witness: first lookup on an empty database root. -/
theorem c10_root_server_witness :
    ((RootState.mk []).server 3).1.data.state = State.Bare ∧
    ((RootState.mk []).server 3).2.2 = [⟨3, ServerData.default⟩] :=
  ⟨((c10_root_server ⟨[]⟩ 3).1 rfl).2.1, ((c10_root_server ⟨[]⟩ 3).1 rfl).2.2.1⟩

end Alerion
